import Mathlib

/-!
Verification of the hybrid taste-profile recommendation engine of the
G8SMovielib repository (the MovieRecommender class, the recommendation
part of the User class, and the suggestion composition of app.js).

Modelling conventions:
* JS objects used as string-keyed dictionaries are modelled as association
  lists (key order = insertion order, as in JS); object assignment is
  modelled by setKey, lookup with a falsy default by getA.
* JS numbers are modelled exactly: ratings as rationals, feature weights and
  scores as real numbers (Math.log is Real.log, Math.sqrt is Real.sqrt,
  Math.round is round, i.e. half-up rounding, which agrees with JS for
  all inputs).
* Math.random() choices are modelled by an explicit natural-number choice
  argument reduced modulo the length of the list being sampled.
* Remote HTTP interactions are modelled by explicit response oracles:
  one constructor for a call that throws (network error, timeout, malformed
  JSON payload) and one for a parsed JSON payload.
* Suggestion objects carry a presentational message string in the source;
  the message text is caller-facing copy and is omitted from the model
  (type, searchTerm and confidence are kept).
-/

/-! ### Association lists: the model of JS string-keyed objects -/

section AssocCore

variable {β : Type}

/-- Keys of an association list, in insertion order (Object.keys). -/
def keysOf (v : List (String × β)) : List String := v.map Prod.fst

/-- JS object assignment obj[k] = x: replace the value if the key is
present, otherwise append the new binding at the end. -/
def setKey (v : List (String × β)) (k : String) (x : β) : List (String × β) :=
  if k ∈ keysOf v then v.map (fun p => if p.1 = k then (k, x) else p) else v ++ [(k, x)]

/-- JS object read with a default for a missing key (obj[k] or d). -/
def getA (v : List (String × β)) (k : String) (d : β) : β := (v.lookup k).getD d

theorem lookup_cons_eq (a t : String) (b : β) (v : List (String × β)) :
    ((a, b) :: v).lookup t = if t = a then some b else v.lookup t := by
  rw [List.lookup_cons]
  by_cases h : t = a
  · rw [beq_iff_eq.mpr h, if_pos h]
  · rw [beq_eq_false_iff_ne.mpr h, if_neg h]

theorem keysOf_cons (a : String) (b : β) (v : List (String × β)) :
    keysOf ((a, b) :: v) = a :: keysOf v := rfl

theorem lookup_eq_none_of_not_mem_keysOf (v : List (String × β)) (t : String)
    (h : t ∉ keysOf v) : v.lookup t = none := by
  induction v with
  | nil => rfl
  | cons p v ih =>
    obtain ⟨a, b⟩ := p
    rw [keysOf_cons, List.mem_cons] at h
    push_neg at h
    rw [lookup_cons_eq, if_neg h.1]
    exact ih h.2

theorem lookup_isSome_of_mem_keysOf (v : List (String × β)) (t : String)
    (h : t ∈ keysOf v) : (v.lookup t).isSome := by
  induction v with
  | nil => simp [keysOf] at h
  | cons p v ih =>
    obtain ⟨a, b⟩ := p
    rw [lookup_cons_eq]
    by_cases ht : t = a
    · rw [if_pos ht]
      rfl
    · rw [if_neg ht]
      rw [keysOf_cons, List.mem_cons] at h
      exact ih (h.resolve_left ht)

theorem keysOf_setKey (v : List (String × β)) (k : String) (x : β) :
    keysOf (setKey v k x) = if k ∈ keysOf v then keysOf v else keysOf v ++ [k] := by
  unfold setKey
  by_cases hk : k ∈ keysOf v
  · rw [if_pos hk, if_pos hk]
    unfold keysOf
    rw [List.map_map]
    have hf : (Prod.fst ∘ fun p : String × β => if p.1 = k then (k, x) else p) = Prod.fst := by
      funext p
      by_cases h : p.1 = k <;> simp [h]
    rw [hf]
  · rw [if_neg hk, if_neg hk]
    unfold keysOf
    simp

theorem mem_keysOf_setKey (v : List (String × β)) (k t : String) (x : β) :
    t ∈ keysOf (setKey v k x) ↔ t ∈ keysOf v ∨ t = k := by
  rw [keysOf_setKey]
  by_cases hk : k ∈ keysOf v
  · rw [if_pos hk]
    constructor
    · exact Or.inl
    · rintro (h | rfl)
      · exact h
      · exact hk
  · rw [if_neg hk]
    simp

theorem nodup_keysOf_setKey (v : List (String × β)) (k : String) (x : β)
    (h : (keysOf v).Nodup) : (keysOf (setKey v k x)).Nodup := by
  rw [keysOf_setKey]
  by_cases hk : k ∈ keysOf v
  · rwa [if_pos hk]
  · rw [if_neg hk]
    simp [List.nodup_append, h, hk]

theorem lookup_mapUpdate (v : List (String × β)) (k : String) (x : β) (t : String) :
    (v.map (fun p => if p.1 = k then (k, x) else p)).lookup t =
      if t = k ∧ k ∈ keysOf v then some x else v.lookup t := by
  induction v with
  | nil => simp [keysOf]
  | cons p v ih =>
    obtain ⟨a, b⟩ := p
    by_cases ha : a = k
    · subst ha
      by_cases ht : t = a
      · subst ht
        simp [lookup_cons_eq, keysOf_cons]
      · simp [lookup_cons_eq, ht, ih, keysOf_cons]
    · have hka : ¬ k = a := fun h => ha h.symm
      by_cases ht : t = a
      · subst ht
        simp [lookup_cons_eq, keysOf_cons, ha, hka]
      · simp [lookup_cons_eq, ht, ha, hka, ih, keysOf_cons]

theorem lookup_append_single (v : List (String × β)) (k : String) (x : β) (t : String) :
    (v ++ [(k, x)]).lookup t =
      if t ∈ keysOf v then v.lookup t else if t = k then some x else none := by
  induction v with
  | nil => simp [keysOf, lookup_cons_eq]
  | cons p v ih =>
    obtain ⟨a, b⟩ := p
    by_cases ht : t = a
    · subst ht
      simp [lookup_cons_eq, keysOf_cons]
    · by_cases hv : t ∈ keysOf v
      · simp [lookup_cons_eq, ht, hv, ih, keysOf_cons]
      · simp [lookup_cons_eq, ht, hv, ih, keysOf_cons]

theorem lookup_setKey (v : List (String × β)) (k : String) (x : β) (t : String) :
    (setKey v k x).lookup t = if t = k then some x else v.lookup t := by
  unfold setKey
  by_cases hk : k ∈ keysOf v
  · rw [if_pos hk, lookup_mapUpdate]
    by_cases ht : t = k
    · rw [if_pos ⟨ht, hk⟩, if_pos ht]
    · rw [if_neg (fun h => ht h.1), if_neg ht]
  · rw [if_neg hk, lookup_append_single]
    by_cases htv : t ∈ keysOf v
    · have htk : ¬ t = k := fun h => hk (h ▸ htv)
      rw [if_pos htv, if_neg htk]
    · rw [if_neg htv]
      by_cases ht : t = k
      · rw [if_pos ht, if_pos ht]
      · rw [if_neg ht, if_neg ht, lookup_eq_none_of_not_mem_keysOf v t htv]

theorem getA_setKey (v : List (String × β)) (k : String) (x d : β) (t : String) :
    getA (setKey v k x) t d = if t = k then x else getA v t d := by
  unfold getA
  rw [lookup_setKey]
  by_cases h : t = k <;> simp [h]

/-- Writing the same constant value at every key of a list, in order
(the model of a forEach loop of object assignments with a fixed value). -/
def addConst (v : List (String × β)) (ks : List String) (x : β) : List (String × β) :=
  ks.foldl (fun acc k => setKey acc k x) v

theorem addConst_cons (v : List (String × β)) (k : String) (ks : List String) (x : β) :
    addConst v (k :: ks) x = addConst (setKey v k x) ks x := rfl

theorem lookup_addConst (v : List (String × β)) (ks : List String) (x : β) (t : String) :
    (addConst v ks x).lookup t = if t ∈ ks then some x else v.lookup t := by
  induction ks generalizing v with
  | nil => simp [addConst]
  | cons k ks ih =>
    rw [addConst_cons, ih]
    by_cases h1 : t ∈ ks
    · rw [if_pos h1, if_pos (List.mem_cons_of_mem _ h1)]
    · rw [if_neg h1, lookup_setKey]
      by_cases h2 : t = k
      · rw [if_pos h2, if_pos (List.mem_cons.mpr (Or.inl h2))]
      · rw [if_neg h2, if_neg (by rw [List.mem_cons]; tauto)]

theorem mem_keysOf_addConst (v : List (String × β)) (ks : List String) (x : β) (t : String) :
    t ∈ keysOf (addConst v ks x) ↔ t ∈ keysOf v ∨ t ∈ ks := by
  induction ks generalizing v with
  | nil => simp [addConst]
  | cons k ks ih =>
    rw [addConst_cons, ih, mem_keysOf_setKey]
    simp only [List.mem_cons]
    tauto

theorem nodup_keysOf_addConst (v : List (String × β)) (ks : List String) (x : β)
    (h : (keysOf v).Nodup) : (keysOf (addConst v ks x)).Nodup := by
  induction ks generalizing v with
  | nil => simpa [addConst]
  | cons k ks ih =>
    rw [addConst_cons]
    exact ih (setKey v k x) (nodup_keysOf_setKey v k x h)

end AssocCore

/-! ### JS string primitives (structural implementations) -/

/-- JS String.prototype.split with a single-character separator: split at
every occurrence, keeping empty pieces (structural char-list recursion). -/
def splitAux (sep : Char) : List Char → List Char → List String
  | [], acc => [String.mk acc.reverse]
  | c :: cs, acc =>
    if c = sep then String.mk acc.reverse :: splitAux sep cs []
    else splitAux sep cs (c :: acc)

/-- JS s.split(sep) for a one-character separator. -/
def splitOnChar (sep : Char) (s : String) : List String :=
  splitAux sep s.data []

/-- JS whitespace test used by String.prototype.trim (ASCII subset). -/
def isJsWs (c : Char) : Bool :=
  c.toNat = 32 ∨ c.toNat = 9 ∨ c.toNat = 10 ∨ c.toNat = 13

/-- JS String.prototype.trim: strip whitespace from both ends. -/
def trimStr (s : String) : String :=
  String.mk (((s.data.dropWhile isJsWs).reverse.dropWhile isJsWs).reverse)

/-- JS String.prototype.toLowerCase (ASCII). -/
def toLowerStr (s : String) : String :=
  String.mk (s.data.map Char.toLower)

/-! ### Data model: movies and feature vectors -/

/-- A feature vector: term (namespaced string) to weight, as in the source. -/
abbrev Vec := List (String × ℝ)

/-- The item attributes read by the recommender.  In the source a movie's
year is a string fed to parseInt; it is modelled as the parsed integer
(none when the field is empty/unparsable, which yields no decade term). -/
structure Movie where
  title : String
  genre : String
  director : String
  actors : String
  year : Option Int
  rating : ℚ
  mood : String
deriving DecidableEq

/-- The normalization applied to category, creator and contributor names in
extractFeatures: s.trim().toLowerCase(). -/
def normStr (s : String) : String := toLowerStr (trimStr s)

/-- Genre block of extractFeatures: one term per comma-separated tag,
weight 2.0 (skipped when the field is empty/falsy). -/
noncomputable def genreFeatures (m : Movie) (f : Vec) : Vec :=
  if m.genre ≠ "" then
    addConst f ((splitOnChar ',' m.genre).map (fun g => "genre:" ++ normStr g)) 2
  else f

/-- Director block of extractFeatures: the field is split on commas and
every name gets weight 1.5; skipped on empty/sentinel values. -/
noncomputable def directorFeatures (m : Movie) (f : Vec) : Vec :=
  if m.director ≠ "" ∧ m.director ≠ "N/A" ∧ m.director ≠ "Unknown" then
    addConst f ((splitOnChar ',' m.director).map (fun d => "director:" ++ normStr d)) (3/2)
  else f

/-- Actor block of extractFeatures: the first three comma-separated names
get weight 1.0; skipped on empty/sentinel values. -/
noncomputable def actorFeatures (m : Movie) (f : Vec) : Vec :=
  if m.actors ≠ "" ∧ m.actors ≠ "N/A" then
    addConst f (((splitOnChar ',' m.actors).map (fun a => "actor:" ++ normStr a)).take 3) 1
  else f

/-- Decade block of extractFeatures: one decade term at weight 0.8. -/
noncomputable def decadeFeatures (m : Movie) (f : Vec) : Vec :=
  match m.year with
  | some y => setKey f ("decade:" ++ (toString (Int.fdiv y 10 * 10) ++ "s")) (4/5)
  | none => f

/-- Rating block of extractFeatures: a banded term at weight 0.5 when the
rating is positive. -/
noncomputable def ratingFeatures (m : Movie) (f : Vec) : Vec :=
  if 0 < m.rating then
    setKey f ("rating:" ++
      (if 4 ≤ m.rating then "high" else if 5/2 ≤ m.rating then "mid" else "low")) (1/2)
  else f

/-- Mood block of extractFeatures: the mood tag at weight 1.0. -/
noncomputable def moodFeatures (m : Movie) (f : Vec) : Vec :=
  if m.mood ≠ "" then setKey f ("mood:" ++ m.mood) 1 else f

/-- MovieRecommender.extractFeatures: one weighted term vector per movie.
Guards mirror JS truthiness (empty string falsy) and the sentinel checks of
the source; weight constants are 2.0, 1.5, 1.0, 0.8, 0.5, 1.0; the blocks
run in source order on an initially empty object. -/
noncomputable def extractFeatures (m : Movie) : Vec :=
  moodFeatures m (ratingFeatures m (decadeFeatures m (actorFeatures m
    (directorFeatures m (genreFeatures m [])))))

/-! ### IDF computation (MovieRecommender.computeIDF) -/

/-- One counter increment: termDocCount[term] = (termDocCount[term] or 0) + 1. -/
def bumpCount (tc : List (String × Nat)) (k : String) : List (String × Nat) :=
  setKey tc k (getA tc k 0 + 1)

/-- Document-count pass for one movie: every term of its feature vector is
counted once (the seenTerms set of the source is mirrored by dedup). -/
noncomputable def addDocTerms (tc : List (String × Nat)) (m : Movie) : List (String × Nat) :=
  ((keysOf (extractFeatures m)).dedup).foldl bumpCount tc

/-- The termDocCount table accumulated over the collection. -/
noncomputable def termDocCount (c : List Movie) : List (String × Nat) :=
  c.foldl addDocTerms []

/-- Document frequency of a term: the number of items of the collection
whose extracted feature vector contains the term. -/
noncomputable def dfCount (c : List Movie) (t : String) : Nat :=
  c.countP (fun m => decide (t ∈ keysOf (extractFeatures m)))

/-- The IDF table: idf[term] = Math.log(docCount / count) + 1. -/
noncomputable def idfTable (c : List Movie) : Vec :=
  (termDocCount c).map (fun p => (p.1, Real.log ((c.length : ℝ) / (p.2 : ℝ)) + 1))

/-! ### TF-IDF weighting and profile building -/

/-- The idfCache read of applyTFIDF: this.idfCache[term] or 1 (JS falsy
default, so a stored 0 would also fall back to 1). -/
noncomputable def idfOr1 (tbl : Vec) (t : String) : ℝ :=
  match tbl.lookup t with
  | none => 1
  | some v => if v = 0 then 1 else v

/-- MovieRecommender.applyTFIDF on a vector: weighted[term] = tf * idf. -/
noncomputable def applyTFIDFVec (tbl : Vec) (f : Vec) : Vec :=
  f.map (fun p => (p.1, p.2 * idfOr1 tbl p.1))

/-- The rating boost of _buildUserProfileJS: 1.5 if rating >= 4, 1.0 if
>= 3, else 0.7 (the else branch also applies to unrated movies). -/
noncomputable def ratingBoost (m : Movie) : ℝ :=
  if 4 ≤ m.rating then 3/2 else if 3 ≤ m.rating then 1 else 7/10

/-- The inner accumulation loop: profile[term] = (profile[term] or 0)
+ value * ratingBoost, over the entries of one weighted vector. -/
noncomputable def accumWeighted (prof : Vec) (w : Vec) (b : ℝ) : Vec :=
  w.foldl (fun acc p => setKey acc p.1 (getA acc p.1 0 + p.2 * b)) prof

/-- The accumulation over all movies of the collection, starting from the
empty profile. -/
noncomputable def accumAll (tbl : Vec) (c : List Movie) : Vec :=
  c.foldl
    (fun prof m => accumWeighted prof (applyTFIDFVec tbl (extractFeatures m)) (ratingBoost m)) []

/-- The final division: profile[term] /= count for every key. -/
noncomputable def divAll (prof : Vec) (n : ℝ) : Vec :=
  prof.map (fun p => (p.1, p.2 / n))

/-! ### Engine state (the mutable fields of the MovieRecommender instance) -/

/-- The engine state: the cached service availability (null = unchecked),
the idfCache and the userProfile. -/
structure RecState where
  serverAvailable : Option Bool
  idfCache : Vec
  userProfile : Vec

/-- MovieRecommender.computeIDF: computes the IDF table and stores it in
this.idfCache. -/
noncomputable def computeIDF (st : RecState) (c : List Movie) : RecState × Vec :=
  let idf := idfTable c
  ({st with idfCache := idf}, idf)

/-- MovieRecommender.applyTFIDF: reads this.idfCache, writes nothing. -/
noncomputable def applyTFIDF (st : RecState) (f : Vec) : RecState × Vec :=
  (st, applyTFIDFVec st.idfCache f)

/-- MovieRecommender._buildUserProfileJS: empty collection short-circuits
to an empty profile; otherwise recompute IDF, accumulate boosted weighted
vectors, divide by the item count, and cache the result as userProfile. -/
noncomputable def buildUserProfileJS (st : RecState) (c : List Movie) : RecState × Vec :=
  if c.length = 0 then ({st with userProfile := []}, [])
  else
    let st1 := (computeIDF st c).1
    let prof := divAll (accumAll st1.idfCache c) (c.length : ℝ)
    ({st1 with userProfile := prof}, prof)

/-! ### Cosine similarity and scoring -/

/-- MovieRecommender.cosineSimilarity: cosine over the union of both key
sets with absent terms read as 0; returns 0 when either magnitude is 0. -/
noncomputable def cosineSimilarity (vA vB : Vec) : ℝ :=
  let allTerms := (keysOf vA ++ keysOf vB).dedup
  let dotProduct := (allTerms.map (fun t => getA vA t 0 * getA vB t 0)).sum
  let magnitudeA := Real.sqrt ((allTerms.map (fun t => getA vA t 0 * getA vA t 0)).sum)
  let magnitudeB := Real.sqrt ((allTerms.map (fun t => getA vB t 0 * getA vB t 0)).sum)
  if magnitudeA = 0 ∨ magnitudeB = 0 then 0 else dotProduct / (magnitudeA * magnitudeB)

/-- MovieRecommender.scoreMovie (synchronous JS scorer): 0 on an empty
cached profile, otherwise round(cosine(profile, tfidf(features)) * 100).
The current idfCache is used as-is (not recomputed). -/
noncomputable def scoreMovie (st : RecState) (m : Movie) : RecState × Int :=
  if st.userProfile.length = 0 then (st, 0)
  else
    let features := extractFeatures m
    let stw := applyTFIDF st features
    let similarity := cosineSimilarity stw.1.userProfile stw.2
    (stw.1, round (similarity * 100))

/-! ### Ranked suggestions (MovieRecommender.getSmartSuggestions) -/

/-- A suggestion, minus its presentational message text. -/
structure Suggestion where
  type : String
  searchTerm : String
  confidence : Option Int
deriving DecidableEq

/-- The destructuring of a term: const [type, value] = term.split(':'). -/
def termTypeValue (t : String) : String × String :=
  let parts := splitOnChar ':' t
  (parts.headI, parts.getD 1 "")

/-- The genre clause of the suggestion loop: emit a genre suggestion when
the term is a genre term and none has been emitted yet. -/
noncomputable def suggGenreStep (acc : List Suggestion) (tw : String × ℝ) : List Suggestion :=
  if (termTypeValue tw.1).1 = "genre" ∧ (acc.find? (fun s => s.type == "genre")).isNone then
    acc ++ [⟨"genre", (termTypeValue tw.1).2, some (min (round (tw.2 * 20)) 99)⟩]
  else acc

/-- The director clause of the suggestion loop. -/
noncomputable def suggDirectorStep (acc : List Suggestion) (tw : String × ℝ) : List Suggestion :=
  if (termTypeValue tw.1).1 = "director" ∧ (acc.find? (fun s => s.type == "director")).isNone then
    acc ++ [⟨"director", (termTypeValue tw.1).2, some (min (round (tw.2 * 20)) 99)⟩]
  else acc

/-- The actor clause of the suggestion loop: emits while fewer than two
actor suggestions are present. -/
noncomputable def suggActorStep (acc : List Suggestion) (tw : String × ℝ) : List Suggestion :=
  if (termTypeValue tw.1).1 = "actor" ∧ acc.countP (fun s => s.type == "actor") < 2 then
    acc ++ [⟨"actor", (termTypeValue tw.1).2, some (min (round (tw.2 * 20)) 99)⟩]
  else acc

/-- One iteration of the suggestion loop: the three clauses run in source
order on the shared suggestions array; confidence = min(round(w*20), 99). -/
noncomputable def suggestStep (acc : List Suggestion) (tw : String × ℝ) : List Suggestion :=
  suggActorStep (suggDirectorStep (suggGenreStep acc tw) tw) tw

/-- MovieRecommender.getSmartSuggestions: below two items return no
suggestions; otherwise rebuild the profile, sort its entries by weight
descending (stable), take the top 10, run the suggestion loop, and return
at most the first 5 suggestions. -/
noncomputable def getSmartSuggestions (st : RecState) (c : List Movie) :
    RecState × List Suggestion :=
  if c.length < 2 then (st, [])
  else
    let st1 := (buildUserProfileJS st c).1
    let topFeatures := (st1.userProfile.mergeSort (fun a b => decide (b.2 ≤ a.2))).take 10
    (st1, (topFeatures.foldl suggestStep []).take 5)

/-! ### Simple recommendations (User.getRecommendations, Feature 13) -/

/-- The static genre-to-keywords map of User.getRecommendations. -/
def genreKeywords (g : String) : List String :=
  if g = "Action" then ["action thriller", "superhero", "martial arts"]
  else if g = "Comedy" then ["comedy romance", "funny", "sitcom movie"]
  else if g = "Drama" then ["drama oscar", "biographical", "emotional"]
  else if g = "Horror" then ["horror scary", "ghost", "psychological thriller"]
  else []

/-- The per-genre counters of User.getStats: genres[m.genre] += 1. -/
def genreCounts (c : List Movie) : List (String × Nat) :=
  c.foldl (fun acc m => bumpCount acc m.genre) []

/-- stats.topGenre: the genre entry with the highest count (stable
descending sort, first entry), or the string None when there are none. -/
def topGenreOf (c : List Movie) : String :=
  match ((genreCounts c).mergeSort (fun a b => decide (b.2 ≤ a.2))).head? with
  | some p => p.1
  | none => "None"

/-- The per-director counters of User.getRecommendations (first name of a
comma-separated director field, trimmed; Unknown and empty skipped). -/
def directorCounts (c : List Movie) : List (String × Nat) :=
  c.foldl
    (fun acc m =>
      if m.director ≠ "" ∧ m.director ≠ "Unknown" then
        bumpCount acc (trimStr (splitOnChar ',' m.director).headI)
      else acc) []

/-- The highly rated movies (rating >= 4) of the collection. -/
def highRatedOf (c : List Movie) : List Movie :=
  c.filter (fun m => decide (4 ≤ m.rating))

/-- User.getRecommendations: a genre-keyword suggestion from the top genre,
a director suggestion when a director appears at least twice, and a
similar suggestion built from a random movie rated >= 4 (its genre,
lower-cased, becomes the search term).  The two Math.random() draws are
the explicit choice arguments. -/
def getRecommendations (c : List Movie) (kChoice rChoice : Nat) : List Suggestion :=
  let topGenre := topGenreOf c
  let s1 : List Suggestion :=
    if topGenre ≠ "None" then
      let keywords := genreKeywords topGenre
      if 0 < keywords.length then
        [⟨"genre", keywords.getD (kChoice % keywords.length) "", none⟩]
      else []
    else []
  let s2 : List Suggestion :=
    match ((directorCounts c).mergeSort (fun a b => decide (b.2 ≤ a.2))).head? with
    | some p => if 2 ≤ p.2 then [⟨"director", p.1, none⟩] else []
    | none => []
  let s3 : List Suggestion :=
    let highRated := highRatedOf c
    if 0 < highRated.length then
      match highRated[rChoice % highRated.length]? with
      | some m => [⟨"similar", toLowerStr m.genre, none⟩]
      | none => []
    else []
  s1 ++ s2 ++ s3

/-- The suggestion selection of app.js showRecommendations on the local
(JS fallback) path: use the ML suggestions when non-empty, otherwise fall
back to the basic User.getRecommendations list. -/
noncomputable def showRecommendationsLocal (st : RecState) (c : List Movie)
    (kChoice rChoice : Nat) : List Suggestion :=
  let mlSuggestions := (getSmartSuggestions st c).2
  let basicSuggestions := getRecommendations c kChoice rChoice
  if 0 < mlSuggestions.length then mlSuggestions else basicSuggestions

/-! ### Backend gateway (Python-first with JS fallback) -/

/-- Outcome of the GET /health probe: a thrown fetch/parse error (network
failure, timeout, malformed payload) or a parsed body whose status field
may or may not be the string ok. -/
inductive HealthResp : Type
  | exn : HealthResp
  | body (statusOk : Bool) : HealthResp

/-- Outcome of POST /profile: thrown, or a parsed body with a success flag
and an optional top_traits array of feature/weight pairs. -/
inductive ProfileResp : Type
  | exn : ProfileResp
  | body (success : Bool) (topTraits : Option (List (String × ℝ))) : ProfileResp

/-- Outcome of POST /score: thrown, or a parsed body with a success flag
and a numeric score. -/
inductive ScoreResp : Type
  | exn : ScoreResp
  | body (success : Bool) (score : ℝ) : ScoreResp

/-- Outcome of POST /recommend: thrown, or a parsed body with a success
flag, a suggestions array and an optional top_traits array. -/
inductive RecommendResp : Type
  | exn : RecommendResp
  | body (success : Bool) (suggestions : List Suggestion)
      (topTraits : Option (List String)) : RecommendResp

/-- MovieRecommender.checkServer: return the cached flag when set;
otherwise probe /health, cache status === ok on a parsed body and false
on a thrown error. -/
def checkServer (st : RecState) (h : HealthResp) : RecState × Bool :=
  match st.serverAvailable with
  | some b => (st, b)
  | none =>
    match h with
    | HealthResp.exn => ({st with serverAvailable := some false}, false)
    | HealthResp.body ok => ({st with serverAvailable := some ok}, ok)

/-- MovieRecommender.buildUserProfilePython: the parsed body on success of
the fetch, null after a thrown error, which also demotes the cached flag. -/
def buildUserProfilePython (st : RecState) (r : ProfileResp) :
    RecState × Option (Bool × Option (List (String × ℝ))) :=
  match r with
  | ProfileResp.exn => ({st with serverAvailable := some false}, none)
  | ProfileResp.body ok tt => (st, some (ok, tt))

/-- MovieRecommender.scoreMoviePython: data.success ? data.score : 0 on a
parsed body; null after a thrown error, which also demotes the flag. -/
def scoreMoviePython (st : RecState) (r : ScoreResp) : RecState × Option ℝ :=
  match r with
  | ScoreResp.exn => ({st with serverAvailable := some false}, none)
  | ScoreResp.body ok sc => (st, some (if ok then sc else 0))

/-- MovieRecommender.getSmartSuggestionsPython: the suggestions and top
traits when the body reports success, null otherwise; a thrown error
demotes the flag. -/
def getSmartSuggestionsPython (st : RecState) (r : RecommendResp) :
    RecState × Option (List Suggestion × Option (List String)) :=
  match r with
  | RecommendResp.exn => ({st with serverAvailable := some false}, none)
  | RecommendResp.body ok sugg tt => (st, if ok then some (sugg, tt) else none)

/-- The result of the public buildUserProfile: either the remote payload
(success flag and top traits) or the locally built profile vector. -/
inductive BuildResult : Type
  | remote (success : Bool) (topTraits : Option (List (String × ℝ))) : BuildResult
  | localp (profile : Vec) : BuildResult

/-- MovieRecommender.buildUserProfile: check the server; when available,
call the Python API and, if the body reports success, cache its top traits
as the user profile and return the payload; otherwise (thrown error or
success=false) fall back to the local JS pipeline. -/
noncomputable def buildUserProfile (st : RecState) (c : List Movie) (h : HealthResp)
    (r : ProfileResp) : RecState × BuildResult :=
  let sb := checkServer st h
  if sb.2 then
    let sr := buildUserProfilePython sb.1 r
    match sr.2 with
    | some (ok, tt) =>
      if ok then
        let profile := (tt.getD []).foldl (fun acc p => setKey acc p.1 p.2) []
        ({sr.1 with userProfile := profile}, BuildResult.remote ok tt)
      else
        let sp := buildUserProfileJS sr.1 c
        (sp.1, BuildResult.localp sp.2)
    | none =>
      let sp := buildUserProfileJS sr.1 c
      (sp.1, BuildResult.localp sp.2)
  else
    let sp := buildUserProfileJS sb.1 c
    (sp.1, BuildResult.localp sp.2)

/-- MovieRecommender.scoreMovieAsync: check the server; when available call
the Python scorer and return its non-null result (including the fixed 0 of
a success=false body); only a null (thrown error) falls back to the local
synchronous scoreMovie. -/
noncomputable def scoreMovieAsync (st : RecState) (m : Movie) (h : HealthResp)
    (r : ScoreResp) : RecState × ℝ :=
  let sb := checkServer st h
  if sb.2 then
    let sr := scoreMoviePython sb.1 r
    match sr.2 with
    | some sc => (sr.1, sc)
    | none =>
      let sp := scoreMovie sr.1 m
      (sp.1, (sp.2 : ℝ))
  else
    let sp := scoreMovie sb.1 m
    (sp.1, (sp.2 : ℝ))

/-- MovieRecommender.getSmartSuggestionsAsync: check the server; when
available call the Python recommender; on a successful body cache its top
traits with decreasing weights 1.0 - i*0.1 and return its suggestions;
otherwise fall back to the local getSmartSuggestions. -/
noncomputable def getSmartSuggestionsAsync (st : RecState) (c : List Movie)
    (h : HealthResp) (r : RecommendResp) : RecState × List Suggestion :=
  let sb := checkServer st h
  if sb.2 then
    let sr := getSmartSuggestionsPython sb.1 r
    match sr.2 with
    | some (sugg, tt) =>
      let profile := ((tt.getD []).enum.foldl
        (fun acc p => setKey acc p.2 (1 - (p.1 : ℝ) * (1/10))) [])
      ({sr.1 with userProfile := profile}, sugg)
    | none =>
      let sp := getSmartSuggestions sr.1 c
      (sp.1, sp.2)
  else
    let sp := getSmartSuggestions sb.1 c
    (sp.1, sp.2)

/-! ### Gateway call sequences (for the sticky-availability property) -/

/-- One public gateway invocation together with its remote-response
oracles. -/
inductive GatewayCall : Type
  | build (c : List Movie) (h : HealthResp) (r : ProfileResp)
  | score (m : Movie) (h : HealthResp) (r : ScoreResp)
  | suggest (c : List Movie) (h : HealthResp) (r : RecommendResp)

/-- The result of one gateway invocation. -/
inductive CallResult : Type
  | build (r : BuildResult)
  | score (x : ℝ)
  | suggest (l : List Suggestion)

/-- Run one gateway call against the engine state. -/
noncomputable def gatewayStep (st : RecState) : GatewayCall → RecState × CallResult
  | GatewayCall.build c h r =>
    let p := buildUserProfile st c h r
    (p.1, CallResult.build p.2)
  | GatewayCall.score m h r =>
    let p := scoreMovieAsync st m h r
    (p.1, CallResult.score p.2)
  | GatewayCall.suggest c h r =>
    let p := getSmartSuggestionsAsync st c h r
    (p.1, CallResult.suggest p.2)

/-- A gateway call with its remote oracles forgotten: only the local
payload remains. -/
inductive LocalCall : Type
  | build (c : List Movie)
  | score (m : Movie)
  | suggest (c : List Movie)

/-- Forget the remote-response oracles of a call. -/
def stripCall : GatewayCall → LocalCall
  | GatewayCall.build c _ _ => LocalCall.build c
  | GatewayCall.score m _ _ => LocalCall.score m
  | GatewayCall.suggest c _ _ => LocalCall.suggest c

/-- Run one call purely through the local JS pipeline. -/
noncomputable def localStep (st : RecState) : LocalCall → RecState × CallResult
  | LocalCall.build c =>
    let p := buildUserProfileJS st c
    (p.1, CallResult.build (BuildResult.localp p.2))
  | LocalCall.score m =>
    let p := scoreMovie st m
    (p.1, CallResult.score (p.2 : ℝ))
  | LocalCall.suggest c =>
    let p := getSmartSuggestions st c
    (p.1, CallResult.suggest p.2)

/-- Run a sequence of gateway calls, collecting the per-call results. -/
noncomputable def runCalls (st : RecState) : List GatewayCall → RecState × List CallResult
  | [] => (st, [])
  | op :: ops =>
    let p := gatewayStep st op
    let q := runCalls p.1 ops
    (q.1, p.2 :: q.2)

/-- Run a sequence of local calls, collecting the per-call results. -/
noncomputable def runLocal (st : RecState) : List LocalCall → RecState × List CallResult
  | [] => (st, [])
  | op :: ops =>
    let p := localStep st op
    let q := runLocal p.1 ops
    (q.1, p.2 :: q.2)

/-! ### Frame lemmas for the local pipeline -/

theorem computeIDF_serverAvailable (st : RecState) (c : List Movie) :
    ((computeIDF st c).1).serverAvailable = st.serverAvailable := rfl

theorem buildUserProfileJS_serverAvailable (st : RecState) (c : List Movie) :
    ((buildUserProfileJS st c).1).serverAvailable = st.serverAvailable := by
  unfold buildUserProfileJS
  split <;> rfl

theorem scoreMovie_serverAvailable (st : RecState) (m : Movie) :
    ((scoreMovie st m).1).serverAvailable = st.serverAvailable := by
  unfold scoreMovie
  split <;> rfl

theorem getSmartSuggestions_serverAvailable (st : RecState) (c : List Movie) :
    ((getSmartSuggestions st c).1).serverAvailable = st.serverAvailable := by
  unfold getSmartSuggestions
  split
  · rfl
  · exact buildUserProfileJS_serverAvailable st c

theorem localStep_serverAvailable (st : RecState) (op : LocalCall) :
    ((localStep st op).1).serverAvailable = st.serverAvailable := by
  cases op with
  | build c => exact buildUserProfileJS_serverAvailable st c
  | score m => exact scoreMovie_serverAvailable st m
  | suggest c => exact getSmartSuggestions_serverAvailable st c

theorem checkServer_of_unavailable (st : RecState) (h : HealthResp)
    (hsa : st.serverAvailable = some false) : checkServer st h = (st, false) := by
  unfold checkServer
  rw [hsa]

theorem gatewayStep_of_unavailable (st : RecState) (op : GatewayCall)
    (hsa : st.serverAvailable = some false) :
    gatewayStep st op = localStep st (stripCall op) := by
  cases op with
  | build c h r =>
    simp [gatewayStep, stripCall, localStep, buildUserProfile,
      checkServer_of_unavailable st h hsa]
  | score m h r =>
    simp [gatewayStep, stripCall, localStep, scoreMovieAsync,
      checkServer_of_unavailable st h hsa]
  | suggest c h r =>
    simp [gatewayStep, stripCall, localStep, getSmartSuggestionsAsync,
      checkServer_of_unavailable st h hsa]

/-- C9, main induction: from an Unavailable state every gateway call runs
the local pipeline (independently of the remote oracles) and the state
stays Unavailable. -/
theorem runCalls_of_unavailable (st : RecState) (ops : List GatewayCall)
    (hsa : st.serverAvailable = some false) :
    runCalls st ops = runLocal st (ops.map stripCall) ∧
      ((runCalls st ops).1).serverAvailable = some false := by
  induction ops generalizing st with
  | nil => exact ⟨rfl, hsa⟩
  | cons op ops ih =>
    have hstep := gatewayStep_of_unavailable st op hsa
    have hsa1 : ((gatewayStep st op).1).serverAvailable = some false := by
      rw [hstep, localStep_serverAvailable]
      exact hsa
    obtain ⟨ih1, ih2⟩ := ih (gatewayStep st op).1 hsa1
    constructor
    · show ((runCalls (gatewayStep st op).1 ops).1,
        (gatewayStep st op).2 :: (runCalls (gatewayStep st op).1 ops).2) = _
      rw [List.map_cons]
      show _ = ((runLocal (localStep st (stripCall op)).1 (ops.map stripCall)).1,
        (localStep st (stripCall op)).2 ::
          (runLocal (localStep st (stripCall op)).1 (ops.map stripCall)).2)
      rw [← hstep, ih1]
    · show ((runCalls (gatewayStep st op).1 ops).1).serverAvailable = some false
      exact ih2

/-! ### Concrete fixtures used by witnesses and counterexamples -/

/-- A rated Action movie with no other attributes. -/
def mAction : Movie := ⟨"The Matrix", "Action", "", "", none, 5, ""⟩

/-- A fresh engine state (availability unchecked, empty caches). -/
def stEmpty : RecState := ⟨none, [], []⟩

/-- An engine state already demoted to Unavailable. -/
def stOff : RecState := ⟨some false, [], []⟩

/-- An engine state with a cached Available flag and a one-term profile. -/
noncomputable def stCx : RecState := ⟨some true, [], [("genre:action", 2)]⟩

/-- An unrated Action movie with no other attributes. -/
def mCx : Movie := ⟨"X", "Action", "", "", none, 0, ""⟩

/-- Cosine similarity of two parallel one-term vectors with positive
weights is 1. -/
theorem cosine_single (t : String) (a b : ℝ) (ha0 : 0 < a) (hb0 : 0 < b) :
    cosineSimilarity [(t, a)] [(t, b)] = 1 := by
  have hterms : (keysOf [(t, a)] ++ keysOf [(t, b)]).dedup = [t] := by
    simp [keysOf]
  have hA : getA [(t, a)] t 0 = a := by
    simp [getA, lookup_cons_eq]
  have hB : getA [(t, b)] t 0 = b := by
    simp [getA, lookup_cons_eq]
  simp only [cosineSimilarity, hterms, List.map_cons, List.map_nil, List.sum_cons,
    List.sum_nil, hA, hB, add_zero]
  rw [Real.sqrt_mul_self ha0.le, Real.sqrt_mul_self hb0.le]
  rw [if_neg (by push_neg; exact ⟨ha0.ne.symm, hb0.ne.symm⟩)]
  exact div_self (mul_ne_zero ha0.ne.symm hb0.ne.symm)

/-- C10: the synchronous local scorer is read-only: the state after
scoreMovie (profile, idfCache, availability flag) is the input state. -/
theorem C10_scoreMovie_frame (st : RecState) (m : Movie) :
    (scoreMovie st m).1 = st := by
  unfold scoreMovie
  split <;> rfl

/-- C8: empty or insufficient input is neutral, never an error: an empty
collection builds an empty profile (also cached) and yields no smart
suggestions, and scoring with an empty cached profile returns 0. -/
theorem C8_empty_inputs (st : RecState) (m : Movie) (hp : st.userProfile = []) :
    (buildUserProfileJS st []).2 = [] ∧
    ((buildUserProfileJS st []).1).userProfile = [] ∧
    (getSmartSuggestions st []).2 = [] ∧
    (scoreMovie st m).2 = 0 := by
  refine ⟨rfl, rfl, rfl, ?_⟩
  unfold scoreMovie
  rw [if_pos (by rw [hp]; rfl)]

/-- Witness for C8 at a concrete state and movie. -/
theorem C8_empty_inputs_w :
    (buildUserProfileJS stEmpty []).2 = [] ∧
    ((buildUserProfileJS stEmpty []).1).userProfile = [] ∧
    (getSmartSuggestions stEmpty []).2 = [] ∧
    (scoreMovie stEmpty mAction).2 = 0 :=
  C8_empty_inputs stEmpty mAction rfl

/-- C9: service unavailability is sticky: from a state whose cached flag
is Unavailable, any sequence of gateway operations behaves exactly as the
local pipeline (so the remote oracles are never consulted) and the final
state is still Unavailable. -/
theorem C9_sticky_unavailable (st : RecState) (ops : List GatewayCall)
    (hsa : st.serverAvailable = some false) :
    runCalls st ops = runLocal st (ops.map stripCall) ∧
      ((runCalls st ops).1).serverAvailable = some false :=
  runCalls_of_unavailable st ops hsa

/-- Witness for C9 on a concrete demoted state and a remote score call
whose oracle reports a healthy server and a successful score. -/
theorem C9_sticky_unavailable_w :
    runCalls stOff [GatewayCall.score mAction (HealthResp.body true) (ScoreResp.body true 77)] =
      runLocal stOff
        ([GatewayCall.score mAction (HealthResp.body true) (ScoreResp.body true 77)].map
          stripCall) ∧
      ((runCalls stOff
        [GatewayCall.score mAction (HealthResp.body true) (ScoreResp.body true 77)]).1).serverAvailable
        = some false :=
  C9_sticky_unavailable stOff
    [GatewayCall.score mAction (HealthResp.body true) (ScoreResp.body true 77)] rfl

/-- C1 (amended): with cached state Available, a thrown remote failure
(network error, timeout, malformed payload) demotes the state immediately
and that same call returns the local pipeline result; a parsed body with
success=false does not demote: profile build and suggestion fetch fall
back to the local pipeline for that call while the state stays Available,
and the score call returns the fixed value 0 instead of the local
scoreMovie result. -/
theorem C1_available_failure_contract (st : RecState) (c : List Movie) (m : Movie)
    (h : HealthResp) (sc : ℝ) (tt : Option (List (String × ℝ)))
    (sugg : List Suggestion) (tts : Option (List String))
    (hsa : st.serverAvailable = some true) :
    (buildUserProfile st c h ProfileResp.exn =
      ((buildUserProfileJS {st with serverAvailable := some false} c).1,
        BuildResult.localp (buildUserProfileJS {st with serverAvailable := some false} c).2)) ∧
    (scoreMovieAsync st m h ScoreResp.exn =
      ((scoreMovie {st with serverAvailable := some false} m).1,
        ((scoreMovie {st with serverAvailable := some false} m).2 : ℝ))) ∧
    (getSmartSuggestionsAsync st c h RecommendResp.exn =
      ((getSmartSuggestions {st with serverAvailable := some false} c).1,
        (getSmartSuggestions {st with serverAvailable := some false} c).2)) ∧
    (scoreMovieAsync st m h (ScoreResp.body false sc) = (st, 0)) ∧
    (buildUserProfile st c h (ProfileResp.body false tt) =
      ((buildUserProfileJS st c).1, BuildResult.localp (buildUserProfileJS st c).2)) ∧
    (getSmartSuggestionsAsync st c h (RecommendResp.body false sugg tts) =
      ((getSmartSuggestions st c).1, (getSmartSuggestions st c).2)) := by
  refine ⟨?_, ?_, ?_, ?_, ?_, ?_⟩
  · simp [buildUserProfile, checkServer, hsa, buildUserProfilePython]
  · simp [scoreMovieAsync, checkServer, hsa, scoreMoviePython]
  · simp [getSmartSuggestionsAsync, checkServer, hsa, getSmartSuggestionsPython]
  · simp [scoreMovieAsync, checkServer, hsa, scoreMoviePython]
  · simp [buildUserProfile, checkServer, hsa, buildUserProfilePython]
  · simp [getSmartSuggestionsAsync, checkServer, hsa, getSmartSuggestionsPython]

/-- Witness for the amended C1 at a concrete Available state. -/
theorem C1_available_failure_contract_w :
    (buildUserProfile stCx [] HealthResp.exn ProfileResp.exn =
      ((buildUserProfileJS {stCx with serverAvailable := some false} []).1,
        BuildResult.localp
          (buildUserProfileJS {stCx with serverAvailable := some false} []).2)) ∧
    (scoreMovieAsync stCx mAction HealthResp.exn ScoreResp.exn =
      ((scoreMovie {stCx with serverAvailable := some false} mAction).1,
        ((scoreMovie {stCx with serverAvailable := some false} mAction).2 : ℝ))) ∧
    (getSmartSuggestionsAsync stCx [] HealthResp.exn RecommendResp.exn =
      ((getSmartSuggestions {stCx with serverAvailable := some false} []).1,
        (getSmartSuggestions {stCx with serverAvailable := some false} []).2)) ∧
    (scoreMovieAsync stCx mAction HealthResp.exn (ScoreResp.body false 55) = (stCx, 0)) ∧
    (buildUserProfile stCx [] HealthResp.exn (ProfileResp.body false none) =
      ((buildUserProfileJS stCx []).1, BuildResult.localp (buildUserProfileJS stCx []).2)) ∧
    (getSmartSuggestionsAsync stCx [] HealthResp.exn (RecommendResp.body false [] none) =
      ((getSmartSuggestions stCx []).1, (getSmartSuggestions stCx []).2)) :=
  C1_available_failure_contract stCx [] mAction HealthResp.exn 55 none [] none rfl

/-- C1 counterexample: in an Available state with a non-empty cached
profile, a /score response with success=false leaves the state Available
(no demotion) and returns the fixed score 0, while the local scoreMovie
result at the same input is 100. -/
theorem C1_counterexample :
    (scoreMovieAsync stCx mCx HealthResp.exn (ScoreResp.body false 55)).1.serverAvailable
        = some true ∧
    (scoreMovieAsync stCx mCx HealthResp.exn (ScoreResp.body false 55)).2 = 0 ∧
    (scoreMovie stCx mCx).2 = 100 := by
  refine ⟨rfl, rfl, ?_⟩
  have hv1 : stCx.userProfile = [("genre:action", (2 : ℝ))] := rfl
  have hv2 : applyTFIDFVec stCx.idfCache (extractFeatures mCx) =
      [("genre:action", (2 * 1 : ℝ))] := rfl
  have hsc : (scoreMovie stCx mCx).2 =
      round (cosineSimilarity stCx.userProfile
        (applyTFIDFVec stCx.idfCache (extractFeatures mCx)) * 100) := rfl
  rw [hsc, hv1, hv2, cosine_single "genre:action" 2 (2 * 1) (by norm_num) (by norm_num),
    one_mul, show ((100 : ℝ)) = ((100 : Int) : ℝ) by norm_num, round_intCast]

/-! ### Namespaced-term reasoning for extractFeatures -/

theorem string_append_left_cancel (p a b : String) (h : p ++ a = p ++ b) : a = b := by
  apply String.ext
  have hd := congrArg String.data h
  rw [String.data_append, String.data_append] at hd
  exact List.append_cancel_left hd

/-- Two terms built from different namespaces (neither namespace a prefix
of the other, stated via take) are different strings. -/
theorem ne_append_of_ns (p q a b : String)
    (h1 : q.data.take p.data.length ≠ p.data)
    (h2 : p.data.take q.data.length ≠ q.data) : p ++ a ≠ q ++ b := by
  intro h
  have hd := congrArg String.data h
  rw [String.data_append, String.data_append] at hd
  rcases le_total p.data.length q.data.length with hle | hle
  · apply h1
    have h3 : (q.data ++ b.data).take p.data.length = q.data.take p.data.length := by
      rw [List.take_append_of_le_length hle]
    rw [← h3, ← hd, List.take_left]
  · apply h2
    have h3 : (p.data ++ a.data).take q.data.length = p.data.take q.data.length := by
      rw [List.take_append_of_le_length hle]
    rw [← h3, hd, List.take_left]

/-- Boolean namespace test on a term: its data starts with the data of the
namespace string. -/
def hasNs (ns t : String) : Bool := decide (t.data.take ns.data.length = ns.data)

theorem lookup_moodFeatures_ne (m : Movie) (f : Vec) (t : String)
    (h : ∀ s, t ≠ "mood:" ++ s) : (moodFeatures m f).lookup t = f.lookup t := by
  unfold moodFeatures
  split
  · rw [lookup_setKey, if_neg (h m.mood)]
  · rfl

theorem lookup_ratingFeatures_ne (m : Movie) (f : Vec) (t : String)
    (h : ∀ s, t ≠ "rating:" ++ s) : (ratingFeatures m f).lookup t = f.lookup t := by
  unfold ratingFeatures
  split
  · rw [lookup_setKey, if_neg (h _)]
  · rfl

theorem lookup_decadeFeatures_ne (m : Movie) (f : Vec) (t : String)
    (h : ∀ s, t ≠ "decade:" ++ s) : (decadeFeatures m f).lookup t = f.lookup t := by
  unfold decadeFeatures
  cases m.year with
  | none => rfl
  | some y => rw [lookup_setKey, if_neg (h _)]

theorem lookup_actorFeatures_ne (m : Movie) (f : Vec) (t : String)
    (h : ∀ s, t ≠ "actor:" ++ s) : (actorFeatures m f).lookup t = f.lookup t := by
  unfold actorFeatures
  split
  · rw [lookup_addConst, if_neg (fun hmem => by
      obtain ⟨a, _, ha⟩ := List.mem_map.mp (List.mem_of_mem_take hmem)
      exact h (normStr a) ha.symm)]
  · rfl

theorem lookup_directorFeatures_ne (m : Movie) (f : Vec) (t : String)
    (h : ∀ s, t ≠ "director:" ++ s) : (directorFeatures m f).lookup t = f.lookup t := by
  unfold directorFeatures
  split
  · rw [lookup_addConst, if_neg (fun hmem => by
      obtain ⟨d, _, hdm⟩ := List.mem_map.mp hmem
      exact h (normStr d) hdm.symm)]
  · rfl

theorem lookup_genreFeatures_ne (m : Movie) (f : Vec) (t : String)
    (h : ∀ s, t ≠ "genre:" ++ s) : (genreFeatures m f).lookup t = f.lookup t := by
  unfold genreFeatures
  split
  · rw [lookup_addConst, if_neg (fun hmem => by
      obtain ⟨g, _, hg⟩ := List.mem_map.mp hmem
      exact h (normStr g) hg.symm)]
  · rfl

theorem lookup_directorFeatures_present (m : Movie) (f : Vec) (x : String)
    (hd : m.director ≠ "" ∧ m.director ≠ "N/A" ∧ m.director ≠ "Unknown") :
    (directorFeatures m f).lookup ("director:" ++ x) =
      if x ∈ (splitOnChar ',' m.director).map normStr then some (3/2)
      else f.lookup ("director:" ++ x) := by
  unfold directorFeatures
  rw [if_pos hd, lookup_addConst]
  by_cases hx : x ∈ (splitOnChar ',' m.director).map normStr
  · obtain ⟨d, hdm, hxd⟩ := List.mem_map.mp hx
    rw [if_pos (List.mem_map.mpr ⟨d, hdm, by rw [hxd]⟩), if_pos hx]
  · have hnot : ("director:" ++ x) ∉
        (splitOnChar ',' m.director).map (fun d => "director:" ++ normStr d) := by
      intro hmem
      obtain ⟨d, hdm, hde⟩ := List.mem_map.mp hmem
      exact hx (List.mem_map.mpr ⟨d, hdm, string_append_left_cancel _ _ _ hde⟩)
    rw [if_neg hnot, if_neg hx]

theorem lookup_actorFeatures_present (m : Movie) (f : Vec) (x : String)
    (ha : m.actors ≠ "" ∧ m.actors ≠ "N/A") :
    (actorFeatures m f).lookup ("actor:" ++ x) =
      if x ∈ ((splitOnChar ',' m.actors).map normStr).take 3 then some 1
      else f.lookup ("actor:" ++ x) := by
  unfold actorFeatures
  rw [if_pos ha, lookup_addConst]
  have hcomm : ((splitOnChar ',' m.actors).map (fun a => "actor:" ++ normStr a)).take 3 =
      (((splitOnChar ',' m.actors).map normStr).take 3).map (fun s => "actor:" ++ s) := by
    rw [← List.map_take, ← List.map_take, List.map_map]
    rfl
  rw [hcomm]
  by_cases hx : x ∈ ((splitOnChar ',' m.actors).map normStr).take 3
  · rw [if_pos (List.mem_map.mpr ⟨x, hx, rfl⟩), if_pos hx]
  · have hnot : ("actor:" ++ x) ∉
        (((splitOnChar ',' m.actors).map normStr).take 3).map (fun s => "actor:" ++ s) := by
      intro hmem
      obtain ⟨s, hsm, hse⟩ := List.mem_map.mp hmem
      rw [string_append_left_cancel _ _ _ hse] at hsm
      exact hx hsm
    rw [if_neg hnot, if_neg hx]

/-- A movie with a single-name creator field, four contributors and other
attributes set. -/
def mW : Movie := ⟨"W", "Action", "Jane Doe", "A One, B Two, C Three, D Four", none, 5, "happy"⟩

/-- A movie whose creator field holds two comma-separated names. -/
def mTwoDir : Movie := ⟨"Y", "", "Joe Russo, Anthony Russo", "", none, 0, ""⟩

/-- C2 (amended): when the creator field is present and not a sentinel,
extract assigns one creator term per normalized comma-separated name of
the field, each at weight 1.5 (so exactly one term exactly when the field
normalizes to a single distinct name); contributor terms are the first
three normalized comma-separated names of the contributors field, each at
weight 1.0, and contributors beyond the third yield no terms. -/
theorem C2_creator_contributor_weights (m : Movie)
    (hd : m.director ≠ "" ∧ m.director ≠ "N/A" ∧ m.director ≠ "Unknown") :
    (∀ x, (extractFeatures m).lookup ("director:" ++ x) =
      if x ∈ (splitOnChar ',' m.director).map normStr then some (3/2) else none) ∧
    (m.actors ≠ "" ∧ m.actors ≠ "N/A" →
      ∀ x, (extractFeatures m).lookup ("actor:" ++ x) =
        if x ∈ ((splitOnChar ',' m.actors).map normStr).take 3 then some 1 else none) ∧
    ((m.actors = "" ∨ m.actors = "N/A") →
      ∀ x, (extractFeatures m).lookup ("actor:" ++ x) = none) := by
  refine ⟨?_, ?_, ?_⟩
  · intro x
    unfold extractFeatures
    rw [lookup_moodFeatures_ne _ _ _ (fun s => ne_append_of_ns _ _ _ _ (by decide) (by decide)),
      lookup_ratingFeatures_ne _ _ _ (fun s => ne_append_of_ns _ _ _ _ (by decide) (by decide)),
      lookup_decadeFeatures_ne _ _ _ (fun s => ne_append_of_ns _ _ _ _ (by decide) (by decide)),
      lookup_actorFeatures_ne _ _ _ (fun s => ne_append_of_ns _ _ _ _ (by decide) (by decide)),
      lookup_directorFeatures_present _ _ _ hd,
      lookup_genreFeatures_ne _ _ _ (fun s => ne_append_of_ns _ _ _ _ (by decide) (by decide))]
    split <;> rfl
  · intro ha x
    unfold extractFeatures
    rw [lookup_moodFeatures_ne _ _ _ (fun s => ne_append_of_ns _ _ _ _ (by decide) (by decide)),
      lookup_ratingFeatures_ne _ _ _ (fun s => ne_append_of_ns _ _ _ _ (by decide) (by decide)),
      lookup_decadeFeatures_ne _ _ _ (fun s => ne_append_of_ns _ _ _ _ (by decide) (by decide)),
      lookup_actorFeatures_present _ _ _ ha,
      lookup_directorFeatures_ne _ _ _ (fun s => ne_append_of_ns _ _ _ _ (by decide) (by decide)),
      lookup_genreFeatures_ne _ _ _ (fun s => ne_append_of_ns _ _ _ _ (by decide) (by decide))]
    split <;> rfl
  · intro ha x
    unfold extractFeatures
    have hskip : actorFeatures m (directorFeatures m (genreFeatures m [])) =
        directorFeatures m (genreFeatures m []) := by
      unfold actorFeatures
      rcases ha with h | h <;> rw [if_neg (by simp [h])]
    rw [lookup_moodFeatures_ne _ _ _ (fun s => ne_append_of_ns _ _ _ _ (by decide) (by decide)),
      lookup_ratingFeatures_ne _ _ _ (fun s => ne_append_of_ns _ _ _ _ (by decide) (by decide)),
      lookup_decadeFeatures_ne _ _ _ (fun s => ne_append_of_ns _ _ _ _ (by decide) (by decide)),
      hskip,
      lookup_directorFeatures_ne _ _ _ (fun s => ne_append_of_ns _ _ _ _ (by decide) (by decide)),
      lookup_genreFeatures_ne _ _ _ (fun s => ne_append_of_ns _ _ _ _ (by decide) (by decide))]
    rfl

/-- Witness for the amended C2 on a concrete movie with one creator name
and four contributors. -/
theorem C2_creator_contributor_weights_w :
    (∀ x, (extractFeatures mW).lookup ("director:" ++ x) =
      if x ∈ (splitOnChar ',' mW.director).map normStr then some (3/2) else none) ∧
    (mW.actors ≠ "" ∧ mW.actors ≠ "N/A" →
      ∀ x, (extractFeatures mW).lookup ("actor:" ++ x) =
        if x ∈ ((splitOnChar ',' mW.actors).map normStr).take 3 then some 1 else none) ∧
    ((mW.actors = "" ∨ mW.actors = "N/A") →
      ∀ x, (extractFeatures mW).lookup ("actor:" ++ x) = none) :=
  C2_creator_contributor_weights mW (by refine ⟨?_, ?_, ?_⟩ <;> decide)

/-- C2 counterexample: a present, non-sentinel creator field holding two
comma-separated names produces two creator terms (both at weight 1.5),
not exactly one. -/
theorem C2_counterexample :
    (mTwoDir.director ≠ "" ∧ mTwoDir.director ≠ "N/A" ∧ mTwoDir.director ≠ "Unknown") ∧
    (extractFeatures mTwoDir).lookup "director:joe russo" = some (3/2) ∧
    (extractFeatures mTwoDir).lookup "director:anthony russo" = some (3/2) ∧
    (extractFeatures mTwoDir).countP (fun p => hasNs "director:" p.1) = 2 := by
  refine ⟨by decide, rfl, rfl, by decide⟩

/-! ### Counting lemmas for computeIDF -/

theorem getA_cons (a t : String) {β : Type} (b d : β) (v : List (String × β)) :
    getA ((a, b) :: v) t d = if t = a then b else getA v t d := by
  unfold getA
  rw [lookup_cons_eq]
  by_cases h : t = a <;> simp [h]

theorem getA_bumpCount (tc : List (String × Nat)) (k t : String) :
    getA (bumpCount tc k) t 0 = if t = k then getA tc k 0 + 1 else getA tc t 0 := by
  unfold bumpCount
  rw [getA_setKey]

theorem mem_keysOf_bumpCount (tc : List (String × Nat)) (k t : String) :
    t ∈ keysOf (bumpCount tc k) ↔ t ∈ keysOf tc ∨ t = k := by
  unfold bumpCount
  exact mem_keysOf_setKey tc k t _

theorem getA_foldl_bump (ks : List String) (tc : List (String × Nat)) (t : String)
    (hnd : ks.Nodup) :
    getA (ks.foldl bumpCount tc) t 0 = getA tc t 0 + (if t ∈ ks then 1 else 0) := by
  induction ks generalizing tc with
  | nil => simp
  | cons k ks ih =>
    rw [List.foldl_cons, ih _ (List.nodup_cons.mp hnd).2]
    by_cases ht : t = k
    · subst ht
      have htk : t ∉ ks := (List.nodup_cons.mp hnd).1
      rw [getA_bumpCount, if_pos rfl, if_neg htk, if_pos (List.mem_cons.mpr (Or.inl rfl))]
    · rw [getA_bumpCount, if_neg ht]
      by_cases hm : t ∈ ks
      · rw [if_pos hm, if_pos (List.mem_cons_of_mem _ hm)]
      · rw [if_neg hm, if_neg (by rw [List.mem_cons]; tauto)]

theorem mem_keysOf_foldl_bump (ks : List String) (tc : List (String × Nat)) (t : String) :
    t ∈ keysOf (ks.foldl bumpCount tc) ↔ t ∈ keysOf tc ∨ t ∈ ks := by
  induction ks generalizing tc with
  | nil => simp
  | cons k ks ih =>
    rw [List.foldl_cons, ih, mem_keysOf_bumpCount]
    simp only [List.mem_cons]
    tauto

theorem getA_addDocTerms (tc : List (String × Nat)) (m : Movie) (t : String) :
    getA (addDocTerms tc m) t 0 =
      getA tc t 0 + (if t ∈ keysOf (extractFeatures m) then 1 else 0) := by
  unfold addDocTerms
  rw [getA_foldl_bump _ _ _ (List.nodup_dedup _)]
  by_cases hm : t ∈ keysOf (extractFeatures m)
  · rw [if_pos (List.mem_dedup.mpr hm), if_pos hm]
  · rw [if_neg (fun hc => hm (List.mem_dedup.mp hc)), if_neg hm]

theorem mem_keysOf_addDocTerms (tc : List (String × Nat)) (m : Movie) (t : String) :
    t ∈ keysOf (addDocTerms tc m) ↔ t ∈ keysOf tc ∨ t ∈ keysOf (extractFeatures m) := by
  unfold addDocTerms
  rw [mem_keysOf_foldl_bump, List.mem_dedup]

theorem getA_foldl_addDocTerms (ms : List Movie) (tc : List (String × Nat)) (t : String) :
    getA (ms.foldl addDocTerms tc) t 0 =
      getA tc t 0 + ms.countP (fun m => decide (t ∈ keysOf (extractFeatures m))) := by
  induction ms generalizing tc with
  | nil => simp
  | cons m ms ih =>
    rw [List.foldl_cons, ih, getA_addDocTerms, List.countP_cons]
    by_cases hm : t ∈ keysOf (extractFeatures m)
    · simp [hm]
      ring
    · simp [hm]

theorem getA_termDocCount (c : List Movie) (t : String) :
    getA (termDocCount c) t 0 = dfCount c t := by
  unfold termDocCount dfCount
  rw [getA_foldl_addDocTerms]
  simp [getA]

theorem mem_keysOf_foldl_addDocTerms (ms : List Movie) (tc : List (String × Nat))
    (t : String) :
    t ∈ keysOf (ms.foldl addDocTerms tc) ↔
      t ∈ keysOf tc ∨ ∃ m ∈ ms, t ∈ keysOf (extractFeatures m) := by
  induction ms generalizing tc with
  | nil => simp
  | cons m ms ih =>
    rw [List.foldl_cons, ih, mem_keysOf_addDocTerms]
    simp only [List.mem_cons]
    constructor
    · rintro ((h | h) | ⟨m2, hm2, h⟩)
      · exact Or.inl h
      · exact Or.inr ⟨m, Or.inl rfl, h⟩
      · exact Or.inr ⟨m2, Or.inr hm2, h⟩
    · rintro (h | ⟨m2, (rfl | hm2), h⟩)
      · exact Or.inl (Or.inl h)
      · exact Or.inl (Or.inr h)
      · exact Or.inr ⟨m2, hm2, h⟩

theorem mem_keysOf_termDocCount (c : List Movie) (t : String) :
    t ∈ keysOf (termDocCount c) ↔ 0 < dfCount c t := by
  unfold termDocCount dfCount
  rw [List.countP_pos_iff, mem_keysOf_foldl_addDocTerms]
  simp [keysOf]

/-- Lookup after a value-only map of an association list (the value
function may read the key). -/
theorem lookup_map_valueKey {β γ : Type} (v : List (String × β)) (g : String → β → γ)
    (t : String) :
    (v.map (fun p => (p.1, g p.1 p.2))).lookup t = (v.lookup t).map (g t) := by
  induction v with
  | nil => rfl
  | cons p v ih =>
    obtain ⟨a, b⟩ := p
    by_cases ht : t = a
    · subst ht
      simp [lookup_cons_eq]
    · simp [lookup_cons_eq, ht, ih]

/-- Lookup after a value-only map of an association list. -/
theorem lookup_map_value {β γ : Type} (v : List (String × β)) (g : β → γ) (t : String) :
    (v.map (fun p => (p.1, g p.2))).lookup t = (v.lookup t).map g := by
  induction v with
  | nil => rfl
  | cons p v ih =>
    obtain ⟨a, b⟩ := p
    by_cases ht : t = a
    · subst ht
      simp [lookup_cons_eq]
    · simp [lookup_cons_eq, ht, ih]

/-- C4: on a non-empty collection, computeIDF assigns to exactly the terms
occurring in some item the value ln(N / df) + 1, where df is the number of
items whose extracted vector contains the term (counted once per item);
every assigned value is at least 1. -/
theorem C4_idf_values (c : List Movie) (t : String) (hne : c ≠ []) :
    (0 < dfCount c t →
      (idfTable c).lookup t =
        some (Real.log ((c.length : ℝ) / (dfCount c t : ℝ)) + 1) ∧
      1 ≤ Real.log ((c.length : ℝ) / (dfCount c t : ℝ)) + 1) ∧
    (dfCount c t = 0 → (idfTable c).lookup t = none) := by
  constructor
  · intro hdf
    have hmem : t ∈ keysOf (termDocCount c) := (mem_keysOf_termDocCount c t).mpr hdf
    have hsome := lookup_isSome_of_mem_keysOf _ t hmem
    obtain ⟨n, hn⟩ := Option.isSome_iff_exists.mp hsome
    have hval : n = dfCount c t := by
      have hg := getA_termDocCount c t
      unfold getA at hg
      rw [hn] at hg
      simpa using hg
    constructor
    · unfold idfTable
      rw [lookup_map_value (termDocCount c)
        (fun n => Real.log ((c.length : ℝ) / (n : ℝ)) + 1) t, hn, hval]
      rfl
    · have hdfN : dfCount c t ≤ c.length := List.countP_le_length _
      have h1 : (1 : ℝ) ≤ (c.length : ℝ) / (dfCount c t : ℝ) := by
        rw [le_div_iff₀ (by exact_mod_cast hdf)]
        simpa using (Nat.cast_le.mpr hdfN)
      have := Real.log_nonneg h1
      linarith
  · intro hdf
    have hnone : (termDocCount c).lookup t = none := by
      apply lookup_eq_none_of_not_mem_keysOf
      intro hmem
      rw [mem_keysOf_termDocCount c t, hdf] at hmem
      exact lt_irrefl 0 hmem
    unfold idfTable
    rw [lookup_map_value (termDocCount c)
      (fun n => Real.log ((c.length : ℝ) / (n : ℝ)) + 1) t, hnone]
    rfl

/-- Witness for C4 on a one-movie collection and its genre term. -/
theorem C4_idf_values_w :
    (0 < dfCount [mAction] "genre:action" →
      (idfTable [mAction]).lookup "genre:action" =
        some (Real.log (([mAction].length : ℝ) / (dfCount [mAction] "genre:action" : ℝ)) + 1) ∧
      1 ≤ Real.log (([mAction].length : ℝ) / (dfCount [mAction] "genre:action" : ℝ)) + 1) ∧
    (dfCount [mAction] "genre:action" = 0 →
      (idfTable [mAction]).lookup "genre:action" = none) :=
  C4_idf_values [mAction] "genre:action" (by decide)

/-! ### The profile-building formula (C5) -/

theorem nodup_keysOf_genreFeatures (m : Movie) (f : Vec) (h : (keysOf f).Nodup) :
    (keysOf (genreFeatures m f)).Nodup := by
  unfold genreFeatures
  split
  · exact nodup_keysOf_addConst _ _ _ h
  · exact h

theorem nodup_keysOf_directorFeatures (m : Movie) (f : Vec) (h : (keysOf f).Nodup) :
    (keysOf (directorFeatures m f)).Nodup := by
  unfold directorFeatures
  split
  · exact nodup_keysOf_addConst _ _ _ h
  · exact h

theorem nodup_keysOf_actorFeatures (m : Movie) (f : Vec) (h : (keysOf f).Nodup) :
    (keysOf (actorFeatures m f)).Nodup := by
  unfold actorFeatures
  split
  · exact nodup_keysOf_addConst _ _ _ h
  · exact h

theorem nodup_keysOf_decadeFeatures (m : Movie) (f : Vec) (h : (keysOf f).Nodup) :
    (keysOf (decadeFeatures m f)).Nodup := by
  unfold decadeFeatures
  cases m.year with
  | none => exact h
  | some y => exact nodup_keysOf_setKey _ _ _ h

theorem nodup_keysOf_ratingFeatures (m : Movie) (f : Vec) (h : (keysOf f).Nodup) :
    (keysOf (ratingFeatures m f)).Nodup := by
  unfold ratingFeatures
  split
  · exact nodup_keysOf_setKey _ _ _ h
  · exact h

theorem nodup_keysOf_moodFeatures (m : Movie) (f : Vec) (h : (keysOf f).Nodup) :
    (keysOf (moodFeatures m f)).Nodup := by
  unfold moodFeatures
  split
  · exact nodup_keysOf_setKey _ _ _ h
  · exact h

/-- Feature vectors have unique terms (as JS object keys do). -/
theorem nodup_keysOf_extract (m : Movie) : (keysOf (extractFeatures m)).Nodup := by
  unfold extractFeatures
  exact nodup_keysOf_moodFeatures _ _ (nodup_keysOf_ratingFeatures _ _
    (nodup_keysOf_decadeFeatures _ _ (nodup_keysOf_actorFeatures _ _
      (nodup_keysOf_directorFeatures _ _ (nodup_keysOf_genreFeatures _ _ List.nodup_nil)))))

theorem keysOf_applyTFIDFVec (tbl f : Vec) : keysOf (applyTFIDFVec tbl f) = keysOf f := by
  simp [applyTFIDFVec, keysOf, List.map_map, Function.comp]

theorem getA_applyTFIDFVec (tbl f : Vec) (t : String) :
    getA (applyTFIDFVec tbl f) t 0 = getA f t 0 * idfOr1 tbl t := by
  unfold applyTFIDFVec getA
  rw [lookup_map_valueKey f (fun k x => x * idfOr1 tbl k) t]
  cases hlook : List.lookup t f with
  | none => simp
  | some v => simp

theorem getA_accumWeighted (prof w : Vec) (b : ℝ) (t : String)
    (hnd : (keysOf w).Nodup) :
    getA (accumWeighted prof w b) t 0 = getA prof t 0 + getA w t 0 * b := by
  induction w generalizing prof with
  | nil =>
    show getA prof t 0 = getA prof t 0 + getA [] t 0 * b
    show getA prof t 0 = getA prof t 0 + (0 : ℝ) * b
    ring
  | cons p w ih =>
    obtain ⟨k, x⟩ := p
    rw [keysOf_cons, List.nodup_cons] at hnd
    show getA (accumWeighted (setKey prof k (getA prof k 0 + x * b)) w b) t 0 = _
    rw [ih _ hnd.2, getA_setKey, getA_cons]
    by_cases ht : t = k
    · subst ht
      have hw : getA w t 0 = 0 := by
        unfold getA
        rw [lookup_eq_none_of_not_mem_keysOf w t hnd.1]
        rfl
    
      rw [if_pos rfl, if_pos rfl, hw]
      ring
    · rw [if_neg ht, if_neg ht]

theorem getA_accumAll (tbl : Vec) (c : List Movie) (t : String) :
    getA (accumAll tbl c) t 0 =
      (c.map (fun m =>
        getA (extractFeatures m) t 0 * idfOr1 tbl t * ratingBoost m)).sum := by
  have hgen : ∀ (ms : List Movie) (prof : Vec),
      getA (ms.foldl (fun prof m =>
        accumWeighted prof (applyTFIDFVec tbl (extractFeatures m)) (ratingBoost m)) prof) t 0 =
        getA prof t 0 + (ms.map (fun m =>
          getA (extractFeatures m) t 0 * idfOr1 tbl t * ratingBoost m)).sum := by
    intro ms
    induction ms with
    | nil =>
      intro prof
      simp
    | cons m ms ih =>
      intro prof
      rw [List.foldl_cons, ih, List.map_cons, List.sum_cons]
      have hnd : (keysOf (applyTFIDFVec tbl (extractFeatures m))).Nodup := by
        rw [keysOf_applyTFIDFVec]
        exact nodup_keysOf_extract m
      rw [getA_accumWeighted _ _ _ _ hnd, getA_applyTFIDFVec]
      ring
  unfold accumAll
  rw [hgen]
  show (0 : ℝ) + _ = _
  rw [zero_add]

theorem getA_divAll (prof : Vec) (n : ℝ) (t : String) :
    getA (divAll prof n) t 0 = getA prof t 0 / n := by
  unfold divAll getA
  rw [lookup_map_value prof (fun x => x / n) t]
  cases hlook : List.lookup t prof with
  | none => simp
  | some v => simp

/-- C5: on a non-empty collection, the built profile assigns to every term
the sum over items of extracted weight times IDF (default 1 for terms
absent from the freshly computed table) times the rating boost (1.5 when
rating >= 4, 1.0 when >= 3, 0.7 otherwise, including unrated items),
divided by the collection size. -/
theorem C5_profile_formula (st : RecState) (c : List Movie) (t : String) (hne : c ≠ []) :
    getA ((buildUserProfileJS st c).2) t 0 =
      (c.map (fun m => getA (extractFeatures m) t 0 * idfOr1 (idfTable c) t *
        (if (4 : ℚ) ≤ m.rating then (3/2 : ℝ)
         else if (3 : ℚ) ≤ m.rating then 1 else 7/10))).sum / (c.length : ℝ) := by
  have hlen : ¬ c.length = 0 := fun h => hne (List.length_eq_zero.mp h)
  unfold buildUserProfileJS
  rw [if_neg hlen]
  show getA (divAll (accumAll (idfTable c) c) (c.length : ℝ)) t 0 = _
  rw [getA_divAll, getA_accumAll]
  rfl

/-- Witness for C5 on a concrete two-movie collection and a genre term. -/
theorem C5_profile_formula_w :
    getA ((buildUserProfileJS stEmpty [mAction, mW]).2) "genre:action" 0 =
      ([mAction, mW].map (fun m =>
        getA (extractFeatures m) "genre:action" 0 * idfOr1 (idfTable [mAction, mW]) "genre:action" *
        (if (4 : ℚ) ≤ m.rating then (3/2 : ℝ)
         else if (3 : ℚ) ≤ m.rating then 1 else 7/10))).sum / (([mAction, mW] : List Movie).length : ℝ) :=
  C5_profile_formula stEmpty [mAction, mW] "genre:action" (by decide)

/-! ### Bounds on the ranked suggestions (C6) -/

/-- Invariant of the suggestion loop: per-kind counts within bounds, and
every collected suggestion derives from a pool entry (its split term and
its min(round(w*20), 99) confidence). -/
abbrev suggInv (pool : List (String × ℝ)) (acc : List Suggestion) : Prop :=
  acc.countP (fun s => s.type == "genre") ≤ 1 ∧
  acc.countP (fun s => s.type == "director") ≤ 1 ∧
  acc.countP (fun s => s.type == "actor") ≤ 2 ∧
  ∀ s ∈ acc, ∃ tw ∈ pool, s.type = (termTypeValue tw.1).1 ∧
    s.searchTerm = (termTypeValue tw.1).2 ∧
    s.confidence = some (min (round (tw.2 * 20)) 99)

theorem suggGenreStep_inv (pool : List (String × ℝ)) (tw : String × ℝ) (htw : tw ∈ pool)
    (acc : List Suggestion) (h : suggInv pool acc) : suggInv pool (suggGenreStep acc tw) := by
  obtain ⟨h1, h2, h3, h4⟩ := h
  unfold suggGenreStep
  split
  case isTrue hc =>
    have hzero : acc.countP (fun s => s.type == "genre") = 0 :=
      List.countP_eq_zero.mpr (List.find?_eq_none.mp (Option.isNone_iff_eq_none.mp hc.2))
    refine ⟨?_, ?_, ?_, ?_⟩
    · rw [List.countP_append, hzero]
      simp
    · rw [List.countP_append]
      simpa using h2
    · rw [List.countP_append]
      simpa using h3
    · intro s hs
      rcases List.mem_append.mp hs with hs | hs
      · exact h4 s hs
      · rw [List.mem_singleton.mp hs]
        exact ⟨tw, htw, hc.1.symm, rfl, rfl⟩
  case isFalse hc => exact ⟨h1, h2, h3, h4⟩

theorem suggDirectorStep_inv (pool : List (String × ℝ)) (tw : String × ℝ) (htw : tw ∈ pool)
    (acc : List Suggestion) (h : suggInv pool acc) : suggInv pool (suggDirectorStep acc tw) := by
  obtain ⟨h1, h2, h3, h4⟩ := h
  unfold suggDirectorStep
  split
  case isTrue hc =>
    have hzero : acc.countP (fun s => s.type == "director") = 0 :=
      List.countP_eq_zero.mpr (List.find?_eq_none.mp (Option.isNone_iff_eq_none.mp hc.2))
    refine ⟨?_, ?_, ?_, ?_⟩
    · rw [List.countP_append]
      simpa using h1
    · rw [List.countP_append, hzero]
      simp
    · rw [List.countP_append]
      simpa using h3
    · intro s hs
      rcases List.mem_append.mp hs with hs | hs
      · exact h4 s hs
      · rw [List.mem_singleton.mp hs]
        exact ⟨tw, htw, hc.1.symm, rfl, rfl⟩
  case isFalse hc => exact ⟨h1, h2, h3, h4⟩

theorem suggActorStep_inv (pool : List (String × ℝ)) (tw : String × ℝ) (htw : tw ∈ pool)
    (acc : List Suggestion) (h : suggInv pool acc) : suggInv pool (suggActorStep acc tw) := by
  obtain ⟨h1, h2, h3, h4⟩ := h
  unfold suggActorStep
  split
  case isTrue hc =>
    refine ⟨?_, ?_, ?_, ?_⟩
    · rw [List.countP_append]
      simpa using h1
    · rw [List.countP_append]
      simpa using h2
    · rw [List.countP_append]
      have hlt := hc.2
      simp only [List.countP_cons, List.countP_nil]
      simp
      omega
    · intro s hs
      rcases List.mem_append.mp hs with hs | hs
      · exact h4 s hs
      · rw [List.mem_singleton.mp hs]
        exact ⟨tw, htw, hc.1.symm, rfl, rfl⟩
  case isFalse hc => exact ⟨h1, h2, h3, h4⟩

theorem foldl_suggestStep_inv (pool l : List (String × ℝ))
    (hsub : ∀ tw ∈ l, tw ∈ pool) (acc : List Suggestion) (h : suggInv pool acc) :
    suggInv pool (l.foldl suggestStep acc) := by
  induction l generalizing acc with
  | nil => exact h
  | cons tw l ih =>
    rw [List.foldl_cons]
    refine ih (fun x hx => hsub x (List.mem_cons_of_mem _ hx)) _ ?_
    have htw := hsub tw (List.mem_cons.mpr (Or.inl rfl))
    exact suggActorStep_inv _ _ htw _ (suggDirectorStep_inv _ _ htw _
      (suggGenreStep_inv _ _ htw _ h))

/-- C6: getSmartSuggestions returns at most 5 suggestions, at most one of
the genre kind, at most one of the director kind and at most two of the
actor kind, and every returned suggestion stems from an entry of the built
profile with confidence min(round(weight*20), 99). -/
theorem C6_smart_suggestion_bounds (st : RecState) (c : List Movie) :
    ((getSmartSuggestions st c).2).length ≤ 5 ∧
    ((getSmartSuggestions st c).2).countP (fun s => s.type == "genre") ≤ 1 ∧
    ((getSmartSuggestions st c).2).countP (fun s => s.type == "director") ≤ 1 ∧
    ((getSmartSuggestions st c).2).countP (fun s => s.type == "actor") ≤ 2 ∧
    ∀ s ∈ (getSmartSuggestions st c).2,
      ∃ tw ∈ ((buildUserProfileJS st c).1).userProfile,
        s.type = (termTypeValue tw.1).1 ∧ s.searchTerm = (termTypeValue tw.1).2 ∧
        s.confidence = some (min (round (tw.2 * 20)) 99) := by
  by_cases hlen : c.length < 2
  · have hout : (getSmartSuggestions st c).2 = [] := by
      unfold getSmartSuggestions
      rw [if_pos hlen]
    rw [hout]
    refine ⟨by simp, by simp, by simp, by simp, by simp⟩
  · have hout : (getSmartSuggestions st c).2 =
        (((((buildUserProfileJS st c).1).userProfile.mergeSort
          (fun a b => decide (b.2 ≤ a.2))).take 10).foldl suggestStep []).take 5 := by
      unfold getSmartSuggestions
      rw [if_neg hlen]
    have hsub : ∀ tw ∈ (((buildUserProfileJS st c).1).userProfile.mergeSort
        (fun a b => decide (b.2 ≤ a.2))).take 10,
        tw ∈ ((buildUserProfileJS st c).1).userProfile := by
      intro tw h
      exact ((List.mergeSort_perm ((buildUserProfileJS st c).1).userProfile _).mem_iff).mp
        (List.mem_of_mem_take h)
    have hinv := foldl_suggestStep_inv _ _ hsub [] ⟨by simp, by simp, by simp, by simp⟩
    obtain ⟨h1, h2, h3, h4⟩ := hinv
    rw [hout]
    refine ⟨?_, ?_, ?_, ?_, ?_⟩
    · exact List.length_take_le _ _
    · exact le_trans (List.Sublist.countP_le _ (List.take_sublist _ _)) h1
    · exact le_trans (List.Sublist.countP_le _ (List.take_sublist _ _)) h2
    · exact le_trans (List.Sublist.countP_le _ (List.take_sublist _ _)) h3
    · intro s hs
      exact h4 s (List.mem_of_mem_take hs)

/-! ### Cosine similarity bounds (C7) -/

theorem cosine_core (ts : List String) (a b : String → ℝ)
    (ha : ∀ t, 0 ≤ a t) (hb : ∀ t, 0 ≤ b t) (hnd : ts.Nodup) :
    0 ≤ (if Real.sqrt ((ts.map (fun t => a t * a t)).sum) = 0 ∨
          Real.sqrt ((ts.map (fun t => b t * b t)).sum) = 0 then (0 : ℝ)
        else ((ts.map (fun t => a t * b t)).sum) /
          (Real.sqrt ((ts.map (fun t => a t * a t)).sum) *
           Real.sqrt ((ts.map (fun t => b t * b t)).sum))) ∧
    (if Real.sqrt ((ts.map (fun t => a t * a t)).sum) = 0 ∨
          Real.sqrt ((ts.map (fun t => b t * b t)).sum) = 0 then (0 : ℝ)
        else ((ts.map (fun t => a t * b t)).sum) /
          (Real.sqrt ((ts.map (fun t => a t * a t)).sum) *
           Real.sqrt ((ts.map (fun t => b t * b t)).sum))) ≤ 1 ∧
    ((∀ t, a t = 0) →
      (if Real.sqrt ((ts.map (fun t => a t * a t)).sum) = 0 ∨
          Real.sqrt ((ts.map (fun t => b t * b t)).sum) = 0 then (0 : ℝ)
        else ((ts.map (fun t => a t * b t)).sum) /
          (Real.sqrt ((ts.map (fun t => a t * a t)).sum) *
           Real.sqrt ((ts.map (fun t => b t * b t)).sum))) = 0) ∧
    ((∀ t, b t = 0) →
      (if Real.sqrt ((ts.map (fun t => a t * a t)).sum) = 0 ∨
          Real.sqrt ((ts.map (fun t => b t * b t)).sum) = 0 then (0 : ℝ)
        else ((ts.map (fun t => a t * b t)).sum) /
          (Real.sqrt ((ts.map (fun t => a t * a t)).sum) *
           Real.sqrt ((ts.map (fun t => b t * b t)).sum))) = 0) := by
  have hza : (∀ t, a t = 0) → Real.sqrt ((ts.map (fun t => a t * a t)).sum) = 0 := by
    intro h0
    have hsum : (ts.map (fun t => a t * a t)).sum = 0 := by
      apply List.sum_eq_zero
      intro x hx
      obtain ⟨t, _, ht⟩ := List.mem_map.mp hx
      rw [← ht, h0 t, mul_zero]
    rw [hsum, Real.sqrt_zero]
  have hzb : (∀ t, b t = 0) → Real.sqrt ((ts.map (fun t => b t * b t)).sum) = 0 := by
    intro h0
    have hsum : (ts.map (fun t => b t * b t)).sum = 0 := by
      apply List.sum_eq_zero
      intro x hx
      obtain ⟨t, _, ht⟩ := List.mem_map.mp hx
      rw [← ht, h0 t, mul_zero]
    rw [hsum, Real.sqrt_zero]
  split_ifs with h
  · exact ⟨le_refl 0, zero_le_one, fun _ => rfl, fun _ => rfl⟩
  · push_neg at h
    have hsa : 0 < Real.sqrt ((ts.map (fun t => a t * a t)).sum) :=
      (Real.sqrt_nonneg _).lt_of_ne (Ne.symm h.1)
    have hsb : 0 < Real.sqrt ((ts.map (fun t => b t * b t)).sum) :=
      (Real.sqrt_nonneg _).lt_of_ne (Ne.symm h.2)
    have hdot : 0 ≤ (ts.map (fun t => a t * b t)).sum := by
      apply List.sum_nonneg
      intro x hx
      obtain ⟨t, _, ht⟩ := List.mem_map.mp hx
      rw [← ht]
      exact mul_nonneg (ha t) (hb t)
    have hconv : ∀ f : String → ℝ, (ts.map f).sum = ∑ t ∈ ts.toFinset, f t :=
      fun f => (List.sum_toFinset f hnd).symm
    have hcs : (ts.map (fun t => a t * b t)).sum ≤
        Real.sqrt ((ts.map (fun t => a t * a t)).sum) *
        Real.sqrt ((ts.map (fun t => b t * b t)).sum) := by
      rw [hconv, hconv, hconv]
      have hsq : ∀ x : ℝ, x * x = x ^ 2 := fun x => (sq x).symm
      simp only [hsq]
      exact Real.sum_mul_le_sqrt_mul_sqrt ts.toFinset a b
    refine ⟨div_nonneg hdot (mul_nonneg hsa.le hsb.le), ?_, ?_, ?_⟩
    · rw [div_le_one (mul_pos hsa hsb)]
      exact hcs
    · intro h0
      exact absurd (hza h0) h.1
    · intro h0
      exact absurd (hzb h0) h.2

/-- C7: for vectors with non-negative weights, cosineSimilarity lies in
[0, 1] (cosine over the union of the two term sets with absent terms read
as 0), and a vector that is zero on every term forces the defined
no-signal result 0. -/
theorem C7_cosine_bounds (vA vB : Vec)
    (hA : ∀ t, 0 ≤ getA vA t 0) (hB : ∀ t, 0 ≤ getA vB t 0) :
    0 ≤ cosineSimilarity vA vB ∧ cosineSimilarity vA vB ≤ 1 ∧
    ((∀ t, getA vA t 0 = 0) → cosineSimilarity vA vB = 0) ∧
    ((∀ t, getA vB t 0 = 0) → cosineSimilarity vA vB = 0) :=
  cosine_core ((keysOf vA ++ keysOf vB).dedup)
    (fun t => getA vA t 0) (fun t => getA vB t 0) hA hB (List.nodup_dedup _)

/-- Witness for C7 on two empty vectors. -/
theorem C7_cosine_bounds_w :
    0 ≤ cosineSimilarity [] [] ∧ cosineSimilarity [] [] ≤ 1 ∧
    ((∀ t, getA ([] : Vec) t 0 = 0) → cosineSimilarity [] [] = 0) ∧
    ((∀ t, getA ([] : Vec) t 0 = 0) → cosineSimilarity [] [] = 0) :=
  C7_cosine_bounds [] [] (fun _ => le_refl 0) (fun _ => le_refl 0)

/-! ### The sparse-collection fallback (C3) -/

theorem similar_mem_getRecommendations (c : List Movie) (kChoice rChoice : Nat) (m : Movie)
    (hm : (highRatedOf c)[rChoice % (highRatedOf c).length]? = some m) :
    (⟨"similar", toLowerStr m.genre, none⟩ : Suggestion) ∈
      getRecommendations c kChoice rChoice := by
  have hpos : 0 < (highRatedOf c).length := by
    by_contra hc
    push_neg at hc
    have hz : (highRatedOf c).length = 0 := Nat.le_zero.mp hc
    rw [List.getElem?_eq_none (by rw [hz]; exact Nat.zero_le _)] at hm
    exact Option.noConfusion hm
  unfold getRecommendations
  rw [if_pos hpos, hm]
  simp

/-- C3: on a collection of fewer than two items the ranked path returns no
suggestions (without ranking), the app-level selection therefore falls
back to the simple recommendation path, and that path's similarity
heuristic suggests the lower-cased category of the randomly chosen item
with rating >= 4 as a search term, with kind similar. -/
theorem C3_sparse_fallback (st : RecState) (c : List Movie) (kChoice rChoice : Nat)
    (hlen : c.length < 2) :
    getSmartSuggestions st c = (st, []) ∧
    showRecommendationsLocal st c kChoice rChoice = getRecommendations c kChoice rChoice ∧
    (∀ m : Movie, (highRatedOf c)[rChoice % (highRatedOf c).length]? = some m →
      (⟨"similar", toLowerStr m.genre, none⟩ : Suggestion) ∈
        getRecommendations c kChoice rChoice) := by
  have h1 : getSmartSuggestions st c = (st, []) := by
    unfold getSmartSuggestions
    rw [if_pos hlen]
  refine ⟨h1, ?_, fun m hm => similar_mem_getRecommendations c kChoice rChoice m hm⟩
  unfold showRecommendationsLocal
  rw [h1]
  simp

/-- Witness for C3 on a one-movie collection holding a 5-star Action
movie. -/
theorem C3_sparse_fallback_w :
    getSmartSuggestions stEmpty [mAction] = (stEmpty, []) ∧
    showRecommendationsLocal stEmpty [mAction] 0 0 = getRecommendations [mAction] 0 0 ∧
    (∀ m : Movie,
      (highRatedOf [mAction])[0 % (highRatedOf [mAction]).length]? = some m →
      (⟨"similar", toLowerStr m.genre, none⟩ : Suggestion) ∈
        getRecommendations [mAction] 0 0) :=
  C3_sparse_fallback stEmpty [mAction] 0 0 (by decide)
